import Mathlib

/-!
The scrapligo `cfg`: option application and attribute injection

A shallow embedding of `cfg/base.go` and `cfg/options.go`.

* A Go `error` is a value of `GoError`; the `error` result of a call is an
  `Option GoError`, `none` being the nil error.
* An option mutates its target through a pointer.  Here the target is passed as the
  current contents of the pointee and every call returns the new contents (`Outcome`).
* A pointer that is handed to an option refers to a live object.
* A run-time panic is an explicit outcome.
* The two option loops carry a ghost call log, the indices of the options they invoked.
* Package `logging` is a trace of entries: the sink an entry was handed to and its
  formatted message.
-/

set_option autoImplicit false

namespace Scrapligo

/-! ## Errors -/

/-- Go error values: the three package level sentinels of `cfg`, any other error made by
`errors.New`, and an error that wraps another one (`fmt.Errorf` with `%w`). -/
inductive GoError
  | ignoredOption
  | invalidPlatformAttr
  | noConfigSourcesProvided
  | other (msg : String)
  | wrap (msg : String) (inner : GoError)
  deriving DecidableEq, Repr

/-- Sentinel of options.go line 11. -/
def ErrIgnoredOption : GoError := GoError.ignoredOption

/-- Sentinel of options.go line 12. -/
def ErrInvalidPlatformAttr : GoError := GoError.invalidPlatformAttr

/-- Sentinel of base.go line 12. -/
def ErrNoConfigSourcesProvided : GoError := GoError.noConfigSourcesProvided

/-- The text `err.Error()` returns. -/
def GoError.Error : GoError → String
  | .ignoredOption => "option ignored, for different instance type"
  | .invalidPlatformAttr => "invalid platform attribute"
  | .noConfigSourcesProvided => "no configuration sources provided, cannot continue"
  | .other msg => msg
  | .wrap msg _ => msg

/-- Go `errors.Is`: walks the chain of wrapped errors looking for `target`. -/
def errorsIs (err target : GoError) : Bool :=
  if err = target then true
  else
    match err with
    | .wrap _ inner => errorsIs inner target
    | _ => false

/-! ## Data model -/

/-- Modelled from the spec: the driver handle of package `network`, which is not part of
the sources; the spec gives it at least a host and a port. -/
structure Driver where
  Host : String
  Port : Int
  deriving DecidableEq, Repr

/-- A `*network.Driver`: `none` is the nil pointer. -/
abbrev DriverRef := Option Driver

/-- Modelled from the spec: the response type, which is not part of the sources; the only
observed shape is a result string and a failure flag. -/
structure Response where
  Result : String
  Failed : Bool
  deriving DecidableEq, Repr

/-- The `Platform` interface of base.go lines 16-23, as the table of its two methods; a
method returns a `*Response`, `none` being the nil pointer. -/
structure Platform where
  GetVersion : Option Response
  GetConfig : String → Option Response

/-- The `Cfg` struct of base.go lines 47-59.  `OnPrepare` and `Platform` are `none` when
nil; a slice is its list of elements. -/
structure Cfg where
  ConfigSources : List String
  OnPrepare : Option (DriverRef → Option GoError)
  DedicatedConnection : Bool
  IgnoreVersion : Bool
  CandidateConfig : String
  VersionString : String
  prepared : Bool
  Platform : Option Platform
  conn : DriverRef

/-- The dynamic values that are stored in struct fields and passed as `attrValue`.  A
`*regexp.Regexp` is represented by the text of its pattern, `none` being the nil pointer. -/
inductive GoValue
  | bool (b : Bool)
  | int (i : Int)
  | string (s : String)
  | strings (l : List String)
  | stringMap (m : List (String × String))
  | regexp (pattern : Option String)
  deriving DecidableEq, Repr

/-- One field of a struct as `reflect` presents it: `Name` and `PkgPath` are those of
`reflect.StructField` (`PkgPath` is empty exactly for an exported field), `accepts x` tells
whether the dynamic type of `x` is assignable to the declared type of the field, and
`value` is what the field holds. -/
structure StructField where
  Name : String
  PkgPath : String
  accepts : GoValue → Bool
  value : GoValue

/-- The pointee of a pointer to a struct other than `Cfg`, as `reflect` presents it: the
name of its type and its fields in declaration order. -/
structure StructValue where
  TypeName : String
  fields : List StructField

/-- The three kinds of target an option can be handed, told apart by the type assertion
`c.(*Cfg)` and by `reflect`: a `*Cfg`, a pointer to another struct, anything else. -/
inductive TargetKind
  | cfg
  | platform
  | other
  deriving DecidableEq, Repr

/-- The contents a target of each kind refers to. -/
abbrev TargetKind.Pointee : TargetKind → Type
  | .cfg => Cfg
  | .platform => StructValue
  | .other => GoValue

/-- The result of calling a function that may mutate its target: either a panic or a
normal return with an `error`; both carry the contents of the target afterwards. -/
inductive Outcome (σ : Type)
  | panic (st : σ)
  | ret (st : σ) (err : Option GoError)

/-- The contents of the target after the call. -/
def Outcome.state {σ : Type} : Outcome σ → σ
  | .panic st => st
  | .ret st _ => st

/-- The `Option` function type of options.go line 15, `func(interface{}) error`: given the
kind of the target and its contents, the outcome of the call. -/
abbrev OptionFn := (k : TargetKind) → k.Pointee → Outcome k.Pointee

/-! ## The Facade options (options.go lines 19-73) -/

/-- Function `WithConfigSources`, options.go lines 20-31. -/
def WithConfigSources (sources : List String) : OptionFn := fun k c =>
  match k, c with
  | .cfg, cfgObj => .ret { cfgObj with ConfigSources := sources } none
  | .platform, c => .ret c (some ErrIgnoredOption)
  | .other, c => .ret c (some ErrIgnoredOption)

/-- Function `WithOnPrepare`, options.go lines 34-45. -/
def WithOnPrepare (onPrepare : Option (DriverRef → Option GoError)) : OptionFn := fun k c =>
  match k, c with
  | .cfg, cfgObj => .ret { cfgObj with OnPrepare := onPrepare } none
  | .platform, c => .ret c (some ErrIgnoredOption)
  | .other, c => .ret c (some ErrIgnoredOption)

/-- Function `WithDedicatedConnection`, options.go lines 48-59. -/
def WithDedicatedConnection (dedicatedConnection : Bool) : OptionFn := fun k c =>
  match k, c with
  | .cfg, cfgObj => .ret { cfgObj with DedicatedConnection := dedicatedConnection } none
  | .platform, c => .ret c (some ErrIgnoredOption)
  | .other, c => .ret c (some ErrIgnoredOption)

/-- Function `WithIgnoreVersion`, options.go lines 62-73. -/
def WithIgnoreVersion (ignoreVersion : Bool) : OptionFn := fun k c =>
  match k, c with
  | .cfg, cfgObj => .ret { cfgObj with IgnoreVersion := ignoreVersion } none
  | .platform, c => .ret c (some ErrIgnoredOption)
  | .other, c => .ret c (some ErrIgnoredOption)

/-! ## The attribute injector (options.go lines 77-127) -/

/-- The statement `m[name] = i` on a Go map, kept as its list of entries with one entry
per key: an existing key gets the new value, a new key gets a new entry. -/
def mapAssign : List (String × Nat) → String → Nat → List (String × Nat)
  | [], name, i => [(name, i)]
  | (key, j) :: rest, name, i =>
    if key = name then (key, i) :: rest else (key, j) :: mapAssign rest name i

/-- The order in which one `range` statement visits the entries of a map.  Go leaves it
unspecified: any rearrangement of the entries can occur. -/
structure MapRange where
  order : List (String × Nat) → List (String × Nat)
  perm : ∀ m, (order m).Perm m

/-- The loop of options.go lines 89-91, from field index `i` on: `fields` are the fields
with index `i` and above. -/
def fieldNamesLoop (i : Nat) (fieldNames : List (String × Nat)) :
    List StructField → List (String × Nat)
  | [] => fieldNames
  | f :: fields => fieldNamesLoop (i + 1) (mapAssign fieldNames f.Name i) fields

/-- The loop of options.go lines 93-100 over the entries in the order they are visited:
`attrIndex` starts at `-1` and the first entry whose name equals `attrName` sets it and
breaks. -/
def attrIndexLoop (attrName : String) : List (String × Nat) → Int
  | [] => -1
  | (name, i) :: entries => if name = attrName then (i : Int) else attrIndexLoop attrName entries

/-- The call `fieldVal.Set(reflect.ValueOf(attrValue))` of options.go line 109; `none` is a
panic.  `Set` panics on a field that is not exported (it is not settable) and on a value
that is not assignable to the type of the field; otherwise the field holds the value. -/
def reflectSet (fieldVal : StructField) (x : GoValue) : Option StructField :=
  if fieldVal.PkgPath ≠ "" then none
  else if fieldVal.accepts x then some { fieldVal with value := x }
  else none

/-- The search of options.go lines 87-100: the value of `attrIndex` at line 102.  `range`
is the order in which the loop of line 95 visits `fieldNames`. -/
def attrIndexOf (range : MapRange) (attrName : String) (v : StructValue) : Int :=
  let fieldNames := fieldNamesLoop 0 [] v.fields
  attrIndexLoop attrName (range.order fieldNames)

/-- Function `setPlatformAttr`, options.go lines 77-112.  A `*Cfg` is declined.  On any
target that is not a pointer to a struct `reflect.ValueOf(p).Elem()` or `v.NumField()`
panics.  `range` is the order in which the loop of line 95 visits `fieldNames`. -/
def setPlatformAttr (range : MapRange) (attrName : String) (attrValue : GoValue) : OptionFn :=
  fun k p =>
  match k, p with
  | .cfg, p => .ret p (some ErrIgnoredOption)
  | .other, p => .panic p
  | .platform, v =>
    let attrIndex := attrIndexOf range attrName v
    if attrIndex = -1 then .ret v (some ErrInvalidPlatformAttr)
    else
      match v.fields[attrIndex.toNat]? with
      | none => .panic v
      | some fieldVal =>
        match reflectSet fieldVal attrValue with
        | none => .panic v
        | some newVal => .ret { v with fields := v.fields.set attrIndex.toNat newVal } none

/-- Function `WithVersionPattern`, options.go lines 115-127. -/
def WithVersionPattern (range : MapRange) (versionPattern : Option String) : OptionFn :=
  fun k p =>
  match setPlatformAttr range "VersionPattern" (.regexp versionPattern) k p with
  | .panic st => .panic st
  | .ret st err =>
    match err with
    | some e => if !errorsIs e ErrIgnoredOption then .ret st (some e) else .ret st none
    | none => .ret st none

/-- The `PlatformArgs` struct of base.go lines 25-28. -/
structure PlatformArgs where
  VersionPattern : Option String
  ConfigCommandMap : List (String × String)
  deriving DecidableEq, Repr

/-- What `reflect` presents for a `PlatformArgs`: two exported fields, the first of type
`*regexp.Regexp`, the second of type `map[string]string`. -/
def PlatformArgs.reflect (a : PlatformArgs) : StructValue where
  TypeName := "cfg.PlatformArgs"
  fields :=
    [ { Name := "VersionPattern", PkgPath := "",
        accepts := fun x => match x with
          | .regexp _ => true
          | _ => false,
        value := .regexp a.VersionPattern },
      { Name := "ConfigCommandMap", PkgPath := "",
        accepts := fun x => match x with
          | .stringMap _ => true
          | _ => false,
        value := .stringMap a.ConfigCommandMap } ]

/-! ## The option applier (base.go lines 30-44 and 62-93) -/

/-- The result of an option loop together with its ghost call log: `calls` lists the
indices of the options that were invoked, in the order of the calls. -/
structure Applied (σ : Type) where
  calls : List Nat
  out : Outcome σ

/-- Records the call of option `i` in front of what the rest of the loop did. -/
def Applied.logCall {σ : Type} (i : Nat) (r : Applied σ) : Applied σ :=
  { r with calls := i :: r.calls }

/-- The loop of `setPlatformOptions`, base.go lines 31-43, from option index `i` on. -/
def setPlatformOptionsLoop (k : TargetKind) (i : Nat) (p : k.Pointee) :
    List OptionFn → Applied k.Pointee
  | [] => ⟨[], .ret p none⟩
  | option :: options =>
    match option k p with
    | .panic st => ⟨[i], .panic st⟩
    | .ret st err =>
      match err with
      | some e =>
        if errorsIs e ErrIgnoredOption then
          (setPlatformOptionsLoop k (i + 1) st options).logCall i
        else ⟨[i], .ret st (some e)⟩
      | none => (setPlatformOptionsLoop k (i + 1) st options).logCall i

/-- Function `setPlatformOptions`, base.go lines 30-44. -/
def setPlatformOptions (k : TargetKind) (p : k.Pointee) (options : List OptionFn) :
    Applied k.Pointee :=
  setPlatformOptionsLoop k 0 p options

/-- What `newCfg` hands back: a panic, or the pair of a `*Cfg` (`none` is nil) and an
`error`. -/
inductive NewCfgOutcome
  | panic
  | ret (c : Option Cfg) (err : Option GoError)

/-- The result of `newCfg` together with the ghost call log of its option loop. -/
structure NewCfgResult where
  calls : List Nat
  out : NewCfgOutcome

/-- Records the call of option `i` in front of what the rest of `newCfg` did. -/
def NewCfgResult.logCall (i : Nat) (r : NewCfgResult) : NewCfgResult :=
  { r with calls := i :: r.calls }

/-- The body of `newCfg` from its option loop on, base.go lines 74-92, from option index
`i` on; when no option is left the `ConfigSources` check of lines 86-92 runs. -/
def newCfgLoop (i : Nat) (c : Cfg) : List OptionFn → NewCfgResult
  | [] =>
    if c.ConfigSources.length = 0 then ⟨[], .ret none (some ErrNoConfigSourcesProvided)⟩
    else ⟨[], .ret (some c) none⟩
  | option :: options =>
    match option .cfg c with
    | .panic _ => ⟨[i], .panic⟩
    | .ret st err =>
      match err with
      | some e =>
        if errorsIs e ErrIgnoredOption then (newCfgLoop (i + 1) st options).logCall i
        else ⟨[i], .ret none (some e)⟩
      | none => (newCfgLoop (i + 1) st options).logCall i

/-- The composite literal of base.go lines 66-72: the fields it does not name have their
zero value. -/
def defaultCfg (conn : DriverRef) : Cfg where
  ConfigSources := []
  OnPrepare := none
  DedicatedConnection := false
  IgnoreVersion := false
  CandidateConfig := ""
  VersionString := ""
  prepared := false
  Platform := none
  conn := conn

/-- Function `newCfg`, base.go lines 62-93. -/
def newCfg (conn : DriverRef) (options : List OptionFn) : NewCfgResult :=
  newCfgLoop 0 (defaultCfg conn) options

/-! ## Vocabulary of the statements -/

/-- A call returned nil or an error that `errors.Is` matches with `ErrIgnoredOption`. -/
def Outcome.benign {σ : Type} : Outcome σ → Bool
  | .panic _ => false
  | .ret _ none => true
  | .ret _ (some e) => errorsIs e ErrIgnoredOption

/-- The contents of the target after the given options were called on it one after the
other. -/
def stateAfter (k : TargetKind) (p : k.Pointee) (options : List OptionFn) : k.Pointee :=
  options.foldl (fun st option => (option k st).state) p

/-- A visiting order: the entries as stored. -/
def MapRange.stored : MapRange := ⟨fun m => m, fun m => List.Perm.refl m⟩

/-- A visiting order: the entries as stored, backwards. -/
def MapRange.backwards : MapRange := ⟨fun m => m.reverse, fun m => List.reverse_perm m⟩

/-! ## Sample inputs -/

/-- An option that declines every target and leaves it as it is. -/
def decliningOption : OptionFn := fun _ p => .ret p (some ErrIgnoredOption)

/-- An option that fails on every target with an error of its own, leaving the target as
it is. -/
def failingOption : OptionFn := fun _ p => .ret p (some (.other "boom"))

/-- An option that panics on every target. -/
def panickingOption : OptionFn := fun _ p => .panic p

/-- A vendor struct `struct { versionString string; VersionPattern *regexp.Regexp }`: its
first field is not exported. -/
def sampleVendor : StructValue where
  TypeName := "vendor.Platform"
  fields :=
    [ { Name := "versionString", PkgPath := "vendor",
        accepts := fun x => match x with
          | .string _ => true
          | _ => false,
        value := .string "" },
      { Name := "VersionPattern", PkgPath := "",
        accepts := fun x => match x with
          | .regexp _ => true
          | _ => false,
        value := .regexp none } ]

/-! ## Domain operations (base.go lines 110-140) -/

/-- Modelled from the spec: the two sinks of package `logging`, which is not part of the
sources: `LogError` and `LogDebug`. -/
inductive LogSink
  | error
  | debug
  deriving DecidableEq, Repr

/-- Modelled from the spec: the text that `logging.FormatLogMessage` builds from a level
label, a host, a port and a message, kept as these four parts; package `logging` is not
part of the sources. -/
structure LogMessage where
  level : String
  host : String
  port : Int
  msg : String
  deriving DecidableEq, Repr

/-- Modelled from the spec: the formatter `FormatLogMessage(level, host, port, message)`
of package `logging`. -/
def FormatLogMessage (level host : String) (port : Int) (msg : String) : LogMessage :=
  ⟨level, host, port, msg⟩

/-- One entry of the log trace: the sink it was handed to and the formatted message. -/
structure LogEntry where
  sink : LogSink
  message : LogMessage
  deriving DecidableEq, Repr

/-- Modelled from the spec: `logging.LogError(message)` emits the message on the error
sink. -/
def LogError (message : LogMessage) : LogEntry := ⟨.error, message⟩

/-- Modelled from the spec: `logging.LogDebug(message)` emits the message on the debug
sink. -/
def LogDebug (message : LogMessage) : LogEntry := ⟨.debug, message⟩

/-- Method `formatLogMessage`, base.go lines 138-140; `none` is the panic of reading
`d.conn.Host` through a nil `conn`. -/
def Cfg.formatLogMessage (d : Cfg) (level msg : String) : Option LogMessage :=
  match d.conn with
  | none => none
  | some conn => some (FormatLogMessage level conn.Host conn.Port msg)

/-- How a method call ends: with a panic or with the value it returns. -/
inductive Returned (α : Type)
  | panic
  | value (r : α)
  deriving DecidableEq, Repr

/-- The result of a method of `Cfg`: the contents of the receiver afterwards, the log
entries the call emitted, in order, and how it ended. -/
structure Traced (α : Type) where
  receiver : Cfg
  log : List LogEntry
  out : Returned α

/-- Method `GetVersion`, base.go lines 111-123.  Calling a method of a nil `Platform` and
reading a field of a nil `*Response` panic. -/
def Cfg.GetVersion (d : Cfg) : Traced Response :=
  match d.Platform with
  | none => ⟨d, [], .panic⟩
  | some platform =>
    match platform.GetVersion with
    | none => ⟨d, [], .panic⟩
    | some r =>
      let afterFailed : Option (List LogEntry) :=
        if r.Failed then
          (d.formatLogMessage "debug" "failed to fetch device version").map
            (fun m => [LogError m])
        else some []
      match afterFailed with
      | none => ⟨d, [], .panic⟩
      | some log =>
        let afterResult : Option (List LogEntry) :=
          if r.Result = "" then
            (d.formatLogMessage "warning" "failed to parse device version").map
              (fun m => log ++ [LogDebug m])
          else some log
        match afterResult with
        | none => ⟨d, log, .panic⟩
        | some log => ⟨d, log, .value r⟩

/-- Method `GetConfig`, base.go lines 126-136. -/
def Cfg.GetConfig (d : Cfg) (source : String) : Traced Response :=
  match d.Platform with
  | none => ⟨d, [], .panic⟩
  | some platform =>
    match platform.GetConfig source with
    | none => ⟨d, [], .panic⟩
    | some r =>
      let afterFailed : Option (List LogEntry) :=
        if r.Failed then
          (d.formatLogMessage "debug" "failed to fetch config from device").map
            (fun m => [LogError m])
        else some []
      match afterFailed with
      | none => ⟨d, [], .panic⟩
      | some log => ⟨d, log, .value r⟩

/-! ## Vocabulary of the later statements -/

/-- The level of an entry is the level label it was formatted with, the first argument of
`FormatLogMessage`. -/
def LogEntry.level (e : LogEntry) : String := e.message.level

/-- An entry is error-level when its level is `error`. -/
def LogEntry.isErrorLevel (e : LogEntry) : Bool :=
  e.level = "error"

/-- An entry is warning-level when its level is `warning`. -/
def LogEntry.isWarningLevel (e : LogEntry) : Bool :=
  e.level = "warning"

/-- What an entry says apart from its level: the sink, the host, the port and the text. -/
def LogEntry.unlabelled (e : LogEntry) : LogSink × String × Int × String :=
  (e.sink, e.message.host, e.message.port, e.message.msg)

/-- Whether the first list of characters begins with the second. -/
def startsWith : List Char → List Char → Bool
  | _, [] => true
  | [], _ :: _ => false
  | a :: text, b :: part => a = b && startsWith text part

/-- Whether `part` occurs in `text`. -/
def mentions (text part : String) : Bool :=
  text.toList.tails.any (fun t => startsWith t part.toList)

/-- What is done with the result of the applier on the `Cfg`: a panic goes on, an error is
handed back with a nil `Cfg`, and after a nil error `ConfigSources` is checked. -/
def afterApplier (applied : Applied Cfg) : NewCfgResult :=
  match applied.out with
  | .panic _ => ⟨applied.calls, .panic⟩
  | .ret _ (some err) => ⟨applied.calls, .ret none (some err)⟩
  | .ret c none =>
    if c.ConfigSources.length = 0 then
      ⟨applied.calls, .ret none (some ErrNoConfigSourcesProvided)⟩
    else ⟨applied.calls, .ret (some c) none⟩

/-- The option loop of `newCfg` as the spec words it: build the default `Cfg` bound to
`conn`, run `setPlatformOptions` on it, hand back a nil `Cfg` with the error if there is
one, and otherwise check `ConfigSources`. -/
def newCfgViaApplier (conn : DriverRef) (options : List OptionFn) : NewCfgResult :=
  afterApplier (setPlatformOptions .cfg (defaultCfg conn) options)

/-- A call of one of the five option constructors of options.go. -/
inductive LibraryOption
  | configSources (sources : List String)
  | onPrepare (hook : Option (DriverRef → Option GoError))
  | dedicatedConnection (dedicated : Bool)
  | ignoreVersion (ignore : Bool)
  | versionPattern (range : MapRange) (pattern : Option String)

/-- The option that the constructor call builds. -/
def LibraryOption.build : LibraryOption → OptionFn
  | .configSources sources => WithConfigSources sources
  | .onPrepare hook => WithOnPrepare hook
  | .dedicatedConnection dedicated => WithDedicatedConnection dedicated
  | .ignoreVersion ignore => WithIgnoreVersion ignore
  | .versionPattern range pattern => WithVersionPattern range pattern

/-- The list given to the last `WithConfigSources` of the sequence, if there is one. -/
def lastConfigSources : List LibraryOption → Option (List String)
  | [] => none
  | o :: rest =>
    match lastConfigSources rest with
    | some sources => some sources
    | none =>
      match o with
      | .configSources sources => some sources
      | _ => none

/-- A linear search over the fields in declaration order, from field index `i` on: the
index of the first field named `attrName`, or `-1`. -/
def linearIndexFrom (attrName : String) (i : Nat) : List StructField → Int
  | [] => -1
  | f :: fields =>
    if f.Name = attrName then (i : Int) else linearIndexFrom attrName (i + 1) fields

/-- What `setPlatformAttr` would do on a pointer to a struct if it found the field by a
linear search in declaration order instead of the map. -/
def setPlatformAttrLinear (attrName : String) (attrValue : GoValue) (v : StructValue) :
    Outcome StructValue :=
  let attrIndex := linearIndexFrom attrName 0 v.fields
  if attrIndex = -1 then .ret v (some ErrInvalidPlatformAttr)
  else
    match v.fields[attrIndex.toNat]? with
    | none => .panic v
    | some fieldVal =>
      match reflectSet fieldVal attrValue with
      | none => .panic v
      | some newVal => .ret { v with fields := v.fields.set attrIndex.toNat newVal } none

/-- A `Cfg` as vendor code completes it: one source and a `Platform` whose two methods
return `r`. -/
def sampleFacade (conn : DriverRef) (r : Response) : Cfg :=
  { defaultCfg conn with
    ConfigSources := ["running"],
    Platform := some { GetVersion := some r, GetConfig := fun _ => some r } }

/-! ## Lemmas on the option loops -/

theorem stateAfter_cons (k : TargetKind) (p : k.Pointee) (option : OptionFn)
    (options : List OptionFn) :
    stateAfter k p (option :: options) = stateAfter k (option k p).state options := rfl

theorem setPlatformOptionsLoop_benign (k : TargetKind) (i : Nat) (p : k.Pointee)
    (option : OptionFn) (options : List OptionFn) (h : (option k p).benign = true) :
    setPlatformOptionsLoop k i p (option :: options)
      = (setPlatformOptionsLoop k (i + 1) (option k p).state options).logCall i := by
  rw [setPlatformOptionsLoop]
  cases hr : option k p with
  | panic st => rw [hr] at h; simp [Outcome.benign] at h
  | ret st err =>
    cases err with
    | none => simp [Outcome.state]
    | some e =>
      rw [hr] at h
      simp only [Outcome.benign] at h
      simp [Outcome.state, h]

theorem setPlatformOptionsLoop_fatal (k : TargetKind) (i : Nat) (p st : k.Pointee)
    (option : OptionFn) (options : List OptionFn) (e : GoError)
    (hr : option k p = .ret st (some e)) (he : errorsIs e ErrIgnoredOption = false) :
    setPlatformOptionsLoop k i p (option :: options) = ⟨[i], .ret st (some e)⟩ := by
  unfold setPlatformOptionsLoop
  simp [hr, he]

theorem newCfgLoop_benign (i : Nat) (c : Cfg) (option : OptionFn) (options : List OptionFn)
    (h : (option .cfg c).benign = true) :
    newCfgLoop i c (option :: options)
      = (newCfgLoop (i + 1) (option .cfg c).state options).logCall i := by
  rw [newCfgLoop]
  cases hr : option .cfg c with
  | panic st => rw [hr] at h; simp [Outcome.benign] at h
  | ret st err =>
    cases err with
    | none => simp [Outcome.state]
    | some e =>
      rw [hr] at h
      simp only [Outcome.benign] at h
      simp [Outcome.state, h]

theorem newCfgLoop_fatal (i : Nat) (c st : Cfg) (option : OptionFn) (options : List OptionFn)
    (e : GoError) (hr : option .cfg c = .ret st (some e))
    (he : errorsIs e ErrIgnoredOption = false) :
    newCfgLoop i c (option :: options) = ⟨[i], .ret none (some e)⟩ := by
  unfold newCfgLoop
  simp [hr, he]

/-- The hypothesis "every option up to index `n` is benign at the state it is called on",
moved from a list to its tail. -/
theorem benign_tail (k : TargetKind) (p : k.Pointee) (option : OptionFn)
    (options : List OptionFn) (n : Nat)
    (h : ∀ j (_ : j < n + 1) (hl : j < (option :: options).length),
      (((option :: options).get ⟨j, hl⟩) k
        (stateAfter k p ((option :: options).take j))).benign = true) :
    ∀ j (_ : j < n) (hl : j < options.length),
      ((options.get ⟨j, hl⟩) k
        (stateAfter k (option k p).state (options.take j))).benign = true := by
  intro j hj hl
  have := h (j + 1) (by omega) (by simp; omega)
  simpa [stateAfter_cons] using this

theorem setPlatformOptionsLoop_all_benign (k : TargetKind) (options : List OptionFn) :
    ∀ (i : Nat) (p : k.Pointee),
      (∀ j (_ : j < options.length) (hl : j < options.length),
        ((options.get ⟨j, hl⟩) k (stateAfter k p (options.take j))).benign = true) →
      setPlatformOptionsLoop k i p options
        = ⟨List.range' i options.length, .ret (stateAfter k p options) none⟩ := by
  induction options with
  | nil => intro i p _; rfl
  | cons option options ih =>
    intro i p h
    have h0 : (option k p).benign = true := by
      have := h 0 (by simp) (by simp)
      simpa [stateAfter] using this
    rw [setPlatformOptionsLoop_benign k i p option options h0,
      ih (i + 1) (option k p).state (benign_tail k p option options options.length h)]
    simp [Applied.logCall, stateAfter_cons, List.range'_succ]

theorem newCfgLoop_all_benign (options : List OptionFn) :
    ∀ (i : Nat) (c : Cfg),
      (∀ j (_ : j < options.length) (hl : j < options.length),
        ((options.get ⟨j, hl⟩) .cfg (stateAfter .cfg c (options.take j))).benign = true) →
      newCfgLoop i c options
        = ⟨List.range' i options.length,
            if (stateAfter .cfg c options).ConfigSources.length = 0
            then .ret none (some ErrNoConfigSourcesProvided)
            else .ret (some (stateAfter .cfg c options)) none⟩ := by
  induction options with
  | nil =>
    intro i c _
    simp only [newCfgLoop, stateAfter, List.foldl_nil, List.length_nil, List.range'_zero]
    split <;> rfl
  | cons option options ih =>
    intro i c h
    have h0 : (option .cfg c).benign = true := by
      have := h 0 (by simp) (by simp)
      simpa [stateAfter] using this
    rw [newCfgLoop_benign i c option options h0,
      ih (i + 1) (option .cfg c).state (benign_tail .cfg c option options options.length h)]
    simp [NewCfgResult.logCall, stateAfter_cons, List.range'_succ]

theorem setPlatformOptionsLoop_first_fatal (k : TargetKind) (options : List OptionFn) :
    ∀ (i n : Nat) (p st : k.Pointee) (e : GoError) (hn : n < options.length),
      (∀ j (_ : j < n) (hl : j < options.length),
        ((options.get ⟨j, hl⟩) k (stateAfter k p (options.take j))).benign = true) →
      (options.get ⟨n, hn⟩) k (stateAfter k p (options.take n)) = .ret st (some e) →
      errorsIs e ErrIgnoredOption = false →
      setPlatformOptionsLoop k i p options = ⟨List.range' i (n + 1), .ret st (some e)⟩
        ∧ st = stateAfter k p (options.take (n + 1)) := by
  induction options with
  | nil => intro i n p st e hn; simp at hn
  | cons option options ih =>
    intro i n p st e hn hb hr he
    cases n with
    | zero =>
      have hr0 : option k p = .ret st (some e) := by simpa [stateAfter] using hr
      refine ⟨?_, ?_⟩
      · rw [setPlatformOptionsLoop_fatal k i p st option options e hr0 he]
        simp
      · simp [stateAfter, hr0, Outcome.state]
    | succ n =>
      have h0 : (option k p).benign = true := by
        have := hb 0 (by omega) (by simp)
        simpa [stateAfter] using this
      have hn1 : n < options.length := by simpa using hn
      have hr1 : (options.get ⟨n, hn1⟩) k (stateAfter k (option k p).state (options.take n))
          = .ret st (some e) := by
        simpa [stateAfter_cons] using hr
      obtain ⟨h1, h2⟩ := ih (i + 1) n (option k p).state st e hn1
        (benign_tail k p option options n hb) hr1 he
      refine ⟨?_, ?_⟩
      · rw [setPlatformOptionsLoop_benign k i p option options h0, h1]
        simp [Applied.logCall, List.range'_succ]
      · rw [h2]; simp [stateAfter_cons]

theorem newCfgLoop_first_fatal (options : List OptionFn) :
    ∀ (i n : Nat) (c st : Cfg) (e : GoError) (hn : n < options.length),
      (∀ j (_ : j < n) (hl : j < options.length),
        ((options.get ⟨j, hl⟩) .cfg (stateAfter .cfg c (options.take j))).benign = true) →
      (options.get ⟨n, hn⟩) .cfg (stateAfter .cfg c (options.take n)) = .ret st (some e) →
      errorsIs e ErrIgnoredOption = false →
      newCfgLoop i c options = ⟨List.range' i (n + 1), .ret none (some e)⟩ := by
  induction options with
  | nil => intro i n c st e hn; simp at hn
  | cons option options ih =>
    intro i n c st e hn hb hr he
    cases n with
    | zero =>
      have hr0 : option .cfg c = .ret st (some e) := by simpa [stateAfter] using hr
      rw [newCfgLoop_fatal i c st option options e hr0 he]
      simp
    | succ n =>
      have h0 : (option .cfg c).benign = true := by
        have := hb 0 (by omega) (by simp)
        simpa [stateAfter] using this
      have hn1 : n < options.length := by simpa using hn
      have hr1 : (options.get ⟨n, hn1⟩) .cfg
          (stateAfter .cfg (option .cfg c).state (options.take n)) = .ret st (some e) := by
        simpa [stateAfter_cons] using hr
      rw [newCfgLoop_benign i c option options h0,
        ih (i + 1) n (option .cfg c).state st e hn1 (benign_tail .cfg c option options n hb)
          hr1 he]
      simp [NewCfgResult.logCall, List.range'_succ]

theorem newCfgLoop_returns_cfg (options : List OptionFn) :
    ∀ (i : Nat) (c cfgOut : Cfg),
      (newCfgLoop i c options).out = .ret (some cfgOut) none →
      1 ≤ cfgOut.ConfigSources.length := by
  induction options with
  | nil =>
    intro i c cfgOut h
    unfold newCfgLoop at h
    split at h
    · simp at h
    · simp only [NewCfgOutcome.ret.injEq, Option.some.injEq, and_true] at h
      subst h
      omega
  | cons option options ih =>
    intro i c cfgOut h
    unfold newCfgLoop at h
    cases hr : option .cfg c with
    | panic st => rw [hr] at h; simp at h
    | ret st err =>
      rw [hr] at h
      cases err with
      | none => exact ih (i + 1) st cfgOut (by simpa [NewCfgResult.logCall] using h)
      | some e =>
        simp only at h
        split at h
        · exact ih (i + 1) st cfgOut (by simpa [NewCfgResult.logCall] using h)
        · simp at h

theorem newCfgLoop_all_decline (options : List OptionFn) (c : Cfg)
    (hc : c.ConfigSources.length = 0)
    (h : ∀ o ∈ options, o .cfg c = .ret c (some ErrIgnoredOption)) :
    ∀ i : Nat, newCfgLoop i c options
      = ⟨List.range' i options.length, .ret none (some ErrNoConfigSourcesProvided)⟩ := by
  induction options with
  | nil => intro i; simp [newCfgLoop, hc]
  | cons option options ih =>
    intro i
    have ho : option .cfg c = .ret c (some ErrIgnoredOption) := h option (by simp)
    have hb : (option .cfg c).benign = true := by rw [ho]; rfl
    rw [newCfgLoop_benign i c option options hb, ho]
    simp only [Outcome.state]
    rw [ih (fun o hmem => h o (List.mem_cons_of_mem _ hmem)) (i + 1)]
    simp [NewCfgResult.logCall, List.range'_succ]

/-! ## Lemmas on the attribute search -/

theorem mem_mapAssign_self (m : List (String × Nat)) (name : String) (i : Nat) :
    (name, i) ∈ mapAssign m name i := by
  induction m with
  | nil => simp [mapAssign]
  | cons e m ih =>
    obtain ⟨key, j⟩ := e
    unfold mapAssign
    split
    · next h => simp [h]
    · exact List.mem_cons_of_mem _ ih

theorem mem_mapAssign_of_ne (m : List (String × Nat)) (key name : String) (i j : Nat)
    (h : (name, j) ∈ m) (hne : key ≠ name) : (name, j) ∈ mapAssign m key i := by
  induction m with
  | nil => simp at h
  | cons e m ih =>
    obtain ⟨key', j'⟩ := e
    unfold mapAssign
    rcases List.mem_cons.mp h with heq | hmem
    · have h1 : name = key' := (Prod.mk.inj heq).1
      have h2 : j = j' := (Prod.mk.inj heq).2
      subst h1 h2
      split
      · next hk => exact absurd hk.symm hne
      · exact List.mem_cons_self _ _
    · split
      · exact List.mem_cons_of_mem _ hmem
      · exact List.mem_cons_of_mem _ (ih hmem)

theorem mem_mapAssign (m : List (String × Nat)) (key : String) (i : Nat) (e : String × Nat)
    (h : e ∈ mapAssign m key i) : e = (key, i) ∨ e ∈ m := by
  induction m with
  | nil => left; simpa [mapAssign] using h
  | cons e' m ih =>
    obtain ⟨key', j'⟩ := e'
    unfold mapAssign at h
    split at h
    · next hk =>
      rcases List.mem_cons.mp h with heq | hmem
      · left; rw [heq, hk]
      · right; exact List.mem_cons_of_mem _ hmem
    · rcases List.mem_cons.mp h with heq | hmem
      · right; rw [heq]; exact List.mem_cons_self _ _
      · rcases ih hmem with h1 | h1
        · left; exact h1
        · right; exact List.mem_cons_of_mem _ h1

theorem nodup_keys_mapAssign (m : List (String × Nat)) (key : String) (i : Nat)
    (h : (m.map Prod.fst).Nodup) : ((mapAssign m key i).map Prod.fst).Nodup := by
  induction m with
  | nil => simp [mapAssign]
  | cons e m ih =>
    obtain ⟨key', j'⟩ := e
    simp only [List.map_cons, List.nodup_cons] at h
    unfold mapAssign
    split
    · simpa using h
    · next hk =>
      simp only [List.map_cons, List.nodup_cons]
      refine ⟨?_, ih h.2⟩
      intro hmem
      obtain ⟨e, he, hfst⟩ := List.mem_map.mp hmem
      rcases mem_mapAssign m key i e he with h1 | h1
      · rw [h1] at hfst
        exact hk hfst.symm
      · exact h.1 (List.mem_map.mpr ⟨e, h1, hfst⟩)

theorem nodup_keys_fieldNamesLoop (fields : List StructField) :
    ∀ (i : Nat) (m : List (String × Nat)), (m.map Prod.fst).Nodup →
      ((fieldNamesLoop i m fields).map Prod.fst).Nodup := by
  induction fields with
  | nil => intro i m h; exact h
  | cons f fields ih =>
    intro i m h
    exact ih (i + 1) _ (nodup_keys_mapAssign m f.Name i h)

theorem mem_fieldNamesLoop_of_mem (fields : List StructField) :
    ∀ (i : Nat) (m : List (String × Nat)) (name : String) (j : Nat),
      (name, j) ∈ m → (∀ g ∈ fields, g.Name ≠ name) →
      (name, j) ∈ fieldNamesLoop i m fields := by
  induction fields with
  | nil => intro i m name j h _; exact h
  | cons f fields ih =>
    intro i m name j h hne
    exact ih (i + 1) _ name j
      (mem_mapAssign_of_ne m f.Name name i j h (hne f (List.mem_cons_self _ _)))
      (fun g hg => hne g (List.mem_cons_of_mem _ hg))

theorem mem_fieldNamesLoop_last (front : List StructField) (f : StructField)
    (back : List StructField) (hback : ∀ g ∈ back, g.Name ≠ f.Name) :
    ∀ (i : Nat) (m : List (String × Nat)),
      (f.Name, i + front.length) ∈ fieldNamesLoop i m (front ++ f :: back) := by
  induction front with
  | nil =>
    intro i m
    simp only [List.nil_append, List.length_nil, Nat.add_zero, fieldNamesLoop]
    exact mem_fieldNamesLoop_of_mem back (i + 1) _ f.Name i (mem_mapAssign_self m f.Name i)
      hback
  | cons g front ih =>
    intro i m
    have := ih (i + 1) (mapAssign m g.Name i)
    simpa [fieldNamesLoop, Nat.add_assoc, Nat.add_comm 1] using this

theorem fieldNamesLoop_entry (fields : List StructField) :
    ∀ (i : Nat) (m : List (String × Nat)) (e : String × Nat),
      e ∈ fieldNamesLoop i m fields →
      e ∈ m ∨ (i ≤ e.2 ∧ ∃ f, fields[e.2 - i]? = some f ∧ f.Name = e.1) := by
  induction fields with
  | nil => intro i m e h; left; exact h
  | cons f fields ih =>
    intro i m e h
    rcases ih (i + 1) _ e h with h1 | ⟨hle, g, hg, hname⟩
    · rcases mem_mapAssign m f.Name i e h1 with h2 | h2
      · right
        refine ⟨by rw [h2], f, ?_, by rw [h2]⟩
        rw [h2]
        simp
      · left; exact h2
    · right
      refine ⟨by omega, g, ?_, hname⟩
      have hsub : e.2 - i = (e.2 - (i + 1)) + 1 := by omega
      rw [hsub]
      simpa using hg

theorem attrIndexLoop_of_mem (name : String) (l : List (String × Nat))
    (hnd : (l.map Prod.fst).Nodup) (i : Nat) (h : (name, i) ∈ l) :
    attrIndexLoop name l = (i : Int) := by
  induction l with
  | nil => simp at h
  | cons e l ih =>
    obtain ⟨key, j⟩ := e
    simp only [List.map_cons, List.nodup_cons] at hnd
    unfold attrIndexLoop
    rcases List.mem_cons.mp h with heq | hmem
    · have h1 : name = key := (Prod.mk.inj heq).1
      have h2 : i = j := (Prod.mk.inj heq).2
      subst h1 h2
      simp
    · split
      · next hk =>
        exfalso
        apply hnd.1
        rw [hk]
        exact List.mem_map.mpr ⟨(name, i), hmem, rfl⟩
      · exact ih hnd.2 hmem

theorem attrIndexLoop_of_not_mem (name : String) (l : List (String × Nat))
    (h : ∀ e ∈ l, e.1 ≠ name) : attrIndexLoop name l = -1 := by
  induction l with
  | nil => rfl
  | cons e l ih =>
    obtain ⟨key, j⟩ := e
    unfold attrIndexLoop
    split
    · next hk => exact absurd hk (h (key, j) (List.mem_cons_self _ _))
    · exact ih (fun e he => h e (List.mem_cons_of_mem _ he))

theorem attrIndexLoop_found (name : String) (l : List (String × Nat))
    (h : attrIndexLoop name l ≠ -1) :
    ∃ i : Nat, attrIndexLoop name l = (i : Int) ∧ (name, i) ∈ l := by
  induction l with
  | nil => exact absurd rfl h
  | cons e l ih =>
    obtain ⟨key, j⟩ := e
    unfold attrIndexLoop at h ⊢
    split
    · next hk => exact ⟨j, rfl, by rw [hk]; exact List.mem_cons_self _ _⟩
    · next hk =>
      rw [if_neg hk] at h
      obtain ⟨i, hi, hmem⟩ := ih h
      exact ⟨i, hi, List.mem_cons_of_mem _ hmem⟩

theorem attrIndexOf_last (range : MapRange) (typeName : String) (front : List StructField)
    (f : StructField) (back : List StructField) (hback : ∀ g ∈ back, g.Name ≠ f.Name) :
    attrIndexOf range f.Name ⟨typeName, front ++ f :: back⟩ = (front.length : Int) := by
  unfold attrIndexOf
  simp only
  apply attrIndexLoop_of_mem
  · exact ((range.perm _).map Prod.fst).nodup_iff.mpr
      (nodup_keys_fieldNamesLoop _ 0 [] (by simp))
  · rw [(range.perm _).mem_iff]
    simpa using mem_fieldNamesLoop_last front f back hback 0 []

theorem attrIndexOf_missing (range : MapRange) (attrName : String) (v : StructValue)
    (h : ∀ f ∈ v.fields, f.Name ≠ attrName) : attrIndexOf range attrName v = -1 := by
  unfold attrIndexOf
  simp only
  apply attrIndexLoop_of_not_mem
  intro e he
  rw [(range.perm _).mem_iff] at he
  rcases fieldNamesLoop_entry v.fields 0 [] e he with h1 | ⟨_, f, hf, hname⟩
  · simp at h1
  · rw [← hname]
    exact h f (List.getElem?_mem hf)

theorem attrIndexOf_found (range : MapRange) (attrName : String) (v : StructValue)
    (h : attrIndexOf range attrName v ≠ -1) :
    ∃ i : Nat, attrIndexOf range attrName v = (i : Int)
      ∧ ∃ f, v.fields[i]? = some f ∧ f.Name = attrName := by
  unfold attrIndexOf at h ⊢
  simp only at h ⊢
  obtain ⟨i, hi, hmem⟩ := attrIndexLoop_found attrName _ h
  rw [(range.perm _).mem_iff] at hmem
  rcases fieldNamesLoop_entry v.fields 0 [] (attrName, i) hmem with h1 | ⟨_, f, hf, hname⟩
  · simp at h1
  · exact ⟨i, hi, f, by simpa using hf, hname⟩

/-! ## Claims C1 to C5: construction and the option applier -/

/-- Claim C1: a `Cfg` that `newCfg` returns with a nil error has at least one entry in
`ConfigSources`; and when every option returned nil or an ignored-option error and
`ConfigSources` is empty after the last one, `newCfg` returns nil and
`ErrNoConfigSourcesProvided`. -/
theorem C1_newCfg_never_returns_empty_sources (conn : DriverRef) (options : List OptionFn) :
    (∀ c : Cfg, (newCfg conn options).out = .ret (some c) none → 1 ≤ c.ConfigSources.length)
    ∧ ((∀ j (hj : j < options.length),
          ((options.get ⟨j, hj⟩) .cfg
            (stateAfter .cfg (defaultCfg conn) (options.take j))).benign = true) →
        (stateAfter .cfg (defaultCfg conn) options).ConfigSources.length = 0 →
        (newCfg conn options).out = .ret none (some ErrNoConfigSourcesProvided)) := by
  refine ⟨fun c h => newCfgLoop_returns_cfg options 0 (defaultCfg conn) c h, ?_⟩
  intro hb hempty
  unfold newCfg
  rw [newCfgLoop_all_benign options 0 (defaultCfg conn) (fun j _ hl => hb j hl)]
  simp [hempty]

/-- Witness of claim C1: one source given, and an empty list of sources given. -/
theorem C1_witness :
    1 ≤ (["running"] : List String).length
    ∧ (newCfg none [decliningOption, WithConfigSources []]).out
        = .ret none (some ErrNoConfigSourcesProvided) :=
  ⟨(C1_newCfg_never_returns_empty_sources (some ⟨"r1", 22⟩) [WithConfigSources ["running"]]).1
      { defaultCfg (some ⟨"r1", 22⟩) with ConfigSources := ["running"] } rfl,
   (C1_newCfg_never_returns_empty_sources none [decliningOption, WithConfigSources []]).2
      (by
        intro j hj
        have hj2 : j = 0 ∨ j = 1 := by simp at hj; omega
        rcases hj2 with rfl | rfl <;> rfl)
      rfl⟩

/-- Claim C2: for a non-empty list `s`, `newCfg conn [WithConfigSources s]` returns a nil
error and a `Cfg` whose `ConfigSources` is exactly `s`. -/
theorem C2_newCfg_with_config_sources (conn : DriverRef) (s : List String) (hs : s ≠ []) :
    ∃ c : Cfg, (newCfg conn [WithConfigSources s]).out = .ret (some c) none
      ∧ c.ConfigSources = s := by
  refine ⟨{ defaultCfg conn with ConfigSources := s }, ?_, rfl⟩
  have hlen : s.length ≠ 0 := by
    intro h0
    exact hs (List.length_eq_zero.mp h0)
  simp [newCfg, newCfgLoop, WithConfigSources, NewCfgResult.logCall, hlen]

/-- Witness of claim C2: two sources, the order is kept. -/
theorem C2_witness :
    (["running", "startup"] : List String) ≠ []
    ∧ ∃ c : Cfg, (newCfg none [WithConfigSources ["running", "startup"]]).out
          = .ret (some c) none
        ∧ c.ConfigSources = ["running", "startup"] :=
  ⟨by decide, C2_newCfg_with_config_sources none ["running", "startup"] (by decide)⟩

/-- Claim C3: when every option, called on the target as the earlier options left it,
returns nil or an error matching `ErrIgnoredOption`, `setPlatformOptions` invokes all the
options in order and returns nil, and the loop of `newCfg` invokes all the options in
order and returns what the `ConfigSources` check gives on the final `Cfg`. -/
theorem C3_ignored_option_never_aborts (options : List OptionFn) :
    (∀ (k : TargetKind) (p : k.Pointee),
      (∀ j (hj : j < options.length),
        ((options.get ⟨j, hj⟩) k (stateAfter k p (options.take j))).benign = true) →
      setPlatformOptions k p options
        = ⟨List.range options.length, .ret (stateAfter k p options) none⟩)
    ∧ (∀ conn : DriverRef,
      (∀ j (hj : j < options.length),
        ((options.get ⟨j, hj⟩) .cfg
          (stateAfter .cfg (defaultCfg conn) (options.take j))).benign = true) →
      newCfg conn options
        = ⟨List.range options.length,
            if (stateAfter .cfg (defaultCfg conn) options).ConfigSources.length = 0
            then .ret none (some ErrNoConfigSourcesProvided)
            else .ret (some (stateAfter .cfg (defaultCfg conn) options)) none⟩) := by
  refine ⟨?_, ?_⟩
  · intro k p hb
    unfold setPlatformOptions
    rw [setPlatformOptionsLoop_all_benign k options 0 p (fun j _ hl => hb j hl),
      List.range_eq_range']
  · intro conn hb
    unfold newCfg
    rw [newCfgLoop_all_benign options 0 (defaultCfg conn) (fun j _ hl => hb j hl),
      List.range_eq_range']

/-- Witness of claim C3: a declining option between two options that apply, on a vendor
struct and in `newCfg`. -/
theorem C3_witness :
    (setPlatformOptions .platform sampleVendor
        [WithVersionPattern MapRange.stored (some "v1"), decliningOption,
          WithVersionPattern MapRange.backwards (some "v2")]).calls = [0, 1, 2]
    ∧ (newCfg none
        [WithConfigSources ["running"], decliningOption, WithIgnoreVersion true]).calls
        = [0, 1, 2] :=
  ⟨by
    rw [(C3_ignored_option_never_aborts
        [WithVersionPattern MapRange.stored (some "v1"), decliningOption,
          WithVersionPattern MapRange.backwards (some "v2")]).1 .platform sampleVendor
      (by
        intro j hj
        have hj3 : j = 0 ∨ j = 1 ∨ j = 2 := by simp at hj; omega
        rcases hj3 with rfl | rfl | rfl <;> rfl)]
    rfl,
   by
    rw [(C3_ignored_option_never_aborts
        [WithConfigSources ["running"], decliningOption, WithIgnoreVersion true]).2 none
      (by
        intro j hj
        have hj3 : j = 0 ∨ j = 1 ∨ j = 2 := by simp at hj; omega
        rcases hj3 with rfl | rfl | rfl <;> rfl)]
    rfl⟩

/-- Claim C4: when the option at index `n` is the first to return an error that does not
match `ErrIgnoredOption`, `setPlatformOptions` returns exactly that error having invoked
the options `0` to `n` and no other, the target holds what those options made of it, and
`newCfg` returns a nil `Cfg` with that error having invoked the same options. -/
theorem C4_first_fatal_error_aborts (options : List OptionFn) (n : Nat)
    (hn : n < options.length) (e : GoError) (he : errorsIs e ErrIgnoredOption = false) :
    (∀ (k : TargetKind) (p st : k.Pointee),
      (∀ j (_ : j < n) (hl : j < options.length),
        ((options.get ⟨j, hl⟩) k (stateAfter k p (options.take j))).benign = true) →
      (options.get ⟨n, hn⟩) k (stateAfter k p (options.take n)) = .ret st (some e) →
      setPlatformOptions k p options = ⟨List.range (n + 1), .ret st (some e)⟩
        ∧ st = stateAfter k p (options.take (n + 1)))
    ∧ (∀ (conn : DriverRef) (st : Cfg),
      (∀ j (_ : j < n) (hl : j < options.length),
        ((options.get ⟨j, hl⟩) .cfg
          (stateAfter .cfg (defaultCfg conn) (options.take j))).benign = true) →
      (options.get ⟨n, hn⟩) .cfg (stateAfter .cfg (defaultCfg conn) (options.take n))
        = .ret st (some e) →
      newCfg conn options = ⟨List.range (n + 1), .ret none (some e)⟩) := by
  refine ⟨?_, ?_⟩
  · intro k p st hb hr
    unfold setPlatformOptions
    rw [List.range_eq_range']
    exact setPlatformOptionsLoop_first_fatal k options 0 n p st e hn hb hr he
  · intro conn st hb hr
    unfold newCfg
    rw [List.range_eq_range']
    exact newCfgLoop_first_fatal options 0 n (defaultCfg conn) st e hn hb hr he

/-- Witness of claim C4: the second of four options fails; the options after it, one of
which would panic, are not invoked. -/
theorem C4_witness :
    (setPlatformOptions .cfg (defaultCfg none)
        [WithDedicatedConnection true, failingOption, panickingOption,
          WithDedicatedConnection false]
      = ⟨[0, 1], .ret { defaultCfg none with DedicatedConnection := true }
          (some (.other "boom"))⟩)
    ∧ newCfg none
        [WithDedicatedConnection true, failingOption, panickingOption,
          WithDedicatedConnection false]
      = ⟨[0, 1], .ret none (some (.other "boom"))⟩ :=
  ⟨((C4_first_fatal_error_aborts
        [WithDedicatedConnection true, failingOption, panickingOption,
          WithDedicatedConnection false] 1 (by decide) (.other "boom") (by decide)).1
      .cfg (defaultCfg none) { defaultCfg none with DedicatedConnection := true }
      (by
        intro j hj hl
        have hj0 : j = 0 := by omega
        subst hj0
        rfl)
      rfl).1,
   (C4_first_fatal_error_aborts
        [WithDedicatedConnection true, failingOption, panickingOption,
          WithDedicatedConnection false] 1 (by decide) (.other "boom") (by decide)).2
      none { defaultCfg none with DedicatedConnection := true }
      (by
        intro j hj hl
        have hj0 : j = 0 := by omega
        subst hj0
        rfl)
      rfl⟩

/-- Claim C5: when every option of the sequence, the empty sequence included, declines
the fresh `Cfg` with `ErrIgnoredOption` and leaves it as it is, `newCfg` invokes them all
and returns nil and `ErrNoConfigSourcesProvided`; it does not panic. -/
theorem C5_all_options_decline (conn : DriverRef) (options : List OptionFn)
    (h : ∀ o ∈ options,
      o .cfg (defaultCfg conn) = .ret (defaultCfg conn) (some ErrIgnoredOption)) :
    newCfg conn options
      = ⟨List.range options.length, .ret none (some ErrNoConfigSourcesProvided)⟩ := by
  unfold newCfg
  rw [List.range_eq_range']
  exact newCfgLoop_all_decline options (defaultCfg conn) rfl h 0

/-- Witness of claim C5: no option at all, and two declining options. -/
theorem C5_witness :
    newCfg none [] = ⟨[], .ret none (some ErrNoConfigSourcesProvided)⟩
    ∧ newCfg (some ⟨"r1", 22⟩) [decliningOption, decliningOption]
      = ⟨[0, 1], .ret none (some ErrNoConfigSourcesProvided)⟩ :=
  ⟨C5_all_options_decline none [] (by simp),
   C5_all_options_decline (some ⟨"r1", 22⟩) [decliningOption, decliningOption]
    (by
      intro o ho
      have : o = decliningOption := by simpa using ho
      subst this
      rfl)⟩

/-! ## Claims C6 to C10: the options one at a time -/

/-- Counterexample to claim C6 as stated: the vendor struct has a field named
`versionString` whose type accepts the string `"15.1"`, but the field is not exported, so
`Set` panics and `setPlatformAttr` does not return. -/
theorem C6_counterexample :
    (∃ f ∈ sampleVendor.fields, f.Name = "versionString"
        ∧ f.accepts (.string "15.1") = true)
    ∧ setPlatformAttr MapRange.stored "versionString" (.string "15.1") .platform sampleVendor
        = .panic sampleVendor
    ∧ ¬ ∃ st, setPlatformAttr MapRange.stored "versionString" (.string "15.1") .platform
        sampleVendor = .ret st none := by
  refine ⟨⟨_, List.mem_cons_self _ _, rfl, rfl⟩, rfl, ?_⟩
  rintro ⟨st, hst⟩
  have hp : setPlatformAttr MapRange.stored "versionString" (.string "15.1") .platform
      sampleVendor = .panic sampleVendor := rfl
  rw [hp] at hst
  cases hst

/-- Claim C6, amended: on a pointer to a platform struct with an exported field `f` whose
type accepts `attrValue` (a Go struct has one field of that name, so none after it),
`setPlatformAttr` with the name of `f` returns nil under every visiting order of the map,
afterwards `f` holds `attrValue`, and the fields before and after it, the names and the
types are as they were; in particular `WithVersionPattern p` sets the exported field
`VersionPattern` of a platform struct to `p` and leaves its other fields as they were,
and on a `PlatformArgs` it sets `VersionPattern` to `p` and leaves `ConfigCommandMap` as it
was. -/
theorem C6_setPlatformAttr_sets_one_exported_field :
    (∀ (range : MapRange) (attrValue : GoValue) (typeName : String)
        (front : List StructField) (f : StructField) (back : List StructField),
      f.PkgPath = "" → f.accepts attrValue = true → (∀ g ∈ back, g.Name ≠ f.Name) →
      setPlatformAttr range f.Name attrValue .platform ⟨typeName, front ++ f :: back⟩
        = .ret ⟨typeName, front ++ { f with value := attrValue } :: back⟩ none)
    ∧ (∀ (range : MapRange) (p : Option String) (typeName : String)
        (front : List StructField) (f : StructField) (back : List StructField),
      f.Name = "VersionPattern" → f.PkgPath = "" → f.accepts (.regexp p) = true →
      (∀ g ∈ back, g.Name ≠ "VersionPattern") →
      WithVersionPattern range p .platform ⟨typeName, front ++ f :: back⟩
        = .ret ⟨typeName, front ++ { f with value := .regexp p } :: back⟩ none)
    ∧ (∀ (range : MapRange) (p : Option String) (a : PlatformArgs),
      WithVersionPattern range p .platform a.reflect
        = .ret (PlatformArgs.reflect ⟨p, a.ConfigCommandMap⟩) none) := by
  have general : ∀ (range : MapRange) (attrValue : GoValue) (typeName : String)
      (front : List StructField) (f : StructField) (back : List StructField),
      f.PkgPath = "" → f.accepts attrValue = true → (∀ g ∈ back, g.Name ≠ f.Name) →
      setPlatformAttr range f.Name attrValue .platform ⟨typeName, front ++ f :: back⟩
        = .ret ⟨typeName, front ++ { f with value := attrValue } :: back⟩ none := by
    intro range attrValue typeName front f back hexp hacc hback
    have hidx := attrIndexOf_last range typeName front f back hback
    have hne : ((front.length : Nat) : Int) ≠ -1 := by omega
    have hget : (front ++ f :: back)[front.length]? = some f := by
      rw [List.getElem?_append_right (Nat.le_refl _)]
      simp
    have hset : reflectSet f attrValue = some { f with value := attrValue } := by
      simp [reflectSet, hexp, hacc]
    simp only [setPlatformAttr, hidx, hne, if_false, Int.toNat_ofNat, hget, hset]
    simp
  refine ⟨general, ?_, ?_⟩
  · intro range p typeName front f back hname hexp hacc hback
    have h := general range (.regexp p) typeName front f back hexp hacc
      (by rw [hname]; exact hback)
    rw [hname] at h
    simp only [WithVersionPattern]
    rw [h]
    simp [hname]
  intro range p a
  have h := general range (.regexp p) "cfg.PlatformArgs" []
    { Name := "VersionPattern", PkgPath := "",
      accepts := fun x => match x with
        | .regexp _ => true
        | _ => false,
      value := .regexp a.VersionPattern }
    [ { Name := "ConfigCommandMap", PkgPath := "",
        accepts := fun x => match x with
          | .stringMap _ => true
          | _ => false,
        value := .stringMap a.ConfigCommandMap } ]
    rfl rfl (by simp)
  simp only [List.nil_append] at h
  simp only [WithVersionPattern, PlatformArgs.reflect]
  rw [h]

/-- Witness of claim C6: the exported second field of the vendor struct is set, under the
backwards visiting order; the first field is as it was. -/
theorem C6_witness :
    ((setPlatformAttr MapRange.backwards "VersionPattern" (.regexp (some "^v(.*)$"))
        .platform sampleVendor).state.fields.map (fun f => f.value))
      = [.string "", .regexp (some "^v(.*)$")] := by
  have h := C6_setPlatformAttr_sets_one_exported_field.1 MapRange.backwards
    (.regexp (some "^v(.*)$")) "vendor.Platform"
    [ { Name := "versionString", PkgPath := "vendor",
        accepts := fun x => match x with
          | .string _ => true
          | _ => false,
        value := .string "" } ]
    { Name := "VersionPattern", PkgPath := "",
      accepts := fun x => match x with
        | .regexp _ => true
        | _ => false,
      value := .regexp none }
    [] rfl rfl (by simp)
  have hv : sampleVendor = ⟨"vendor.Platform",
    [ { Name := "versionString", PkgPath := "vendor",
        accepts := fun x => match x with
          | .string _ => true
          | _ => false,
        value := .string "" } ] ++
    { Name := "VersionPattern", PkgPath := "",
      accepts := fun x => match x with
        | .regexp _ => true
        | _ => false,
      value := .regexp none } :: []⟩ := rfl
  rw [hv, h]
  rfl

/-- Claim C7: on a pointer to a platform struct with no field whose name equals
`attrName`, `setPlatformAttr` returns `ErrInvalidPlatformAttr` and the struct, its list of
fields included, is as it was; and whenever the search selects an index, the field at that
index exists and its name equals `attrName`. -/
theorem C7_setPlatformAttr_unknown_attribute (range : MapRange) (attrName : String)
    (attrValue : GoValue) (v : StructValue) :
    ((∀ f ∈ v.fields, f.Name ≠ attrName) →
      setPlatformAttr range attrName attrValue .platform v
        = .ret v (some ErrInvalidPlatformAttr))
    ∧ (attrIndexOf range attrName v ≠ -1 →
      ∃ i : Nat, attrIndexOf range attrName v = (i : Int)
        ∧ ∃ f, v.fields[i]? = some f ∧ f.Name = attrName) := by
  refine ⟨?_, attrIndexOf_found range attrName v⟩
  intro h
  simp [setPlatformAttr, attrIndexOf_missing range attrName v h]

/-- Witness of claim C7: a name that differs from a field name only in case is not found,
and the name `VersionPattern` selects index 1, the field of that name. -/
theorem C7_witness :
    setPlatformAttr MapRange.stored "versionpattern" (.regexp none) .platform sampleVendor
        = .ret sampleVendor (some ErrInvalidPlatformAttr)
    ∧ ∃ i : Nat, attrIndexOf MapRange.backwards "VersionPattern" sampleVendor = (i : Int)
        ∧ ∃ f, sampleVendor.fields[i]? = some f ∧ f.Name = "VersionPattern" :=
  ⟨(C7_setPlatformAttr_unknown_attribute MapRange.stored "versionpattern" (.regexp none)
      sampleVendor).1 (by
        intro f hf
        simp only [sampleVendor, List.mem_cons, List.mem_singleton, List.not_mem_nil,
          or_false] at hf
        rcases hf with rfl | rfl <;> decide),
   (C7_setPlatformAttr_unknown_attribute MapRange.backwards "VersionPattern" (.regexp none)
      sampleVendor).2 (by decide)⟩

/-- Claim C8: each of the four Facade options, called on a `*Cfg`, returns nil, puts its
argument in its own field and leaves the eight other fields as they were; called on a
pointer to another struct or on any other value it returns `ErrIgnoredOption` and leaves
the target as it was. -/
theorem C8_facade_options_set_their_own_field (c : Cfg) (sources : List String)
    (onPrepare : Option (DriverRef → Option GoError)) (dedicated ignore : Bool)
    (s : StructValue) (x : GoValue) :
    (WithConfigSources sources .cfg c
        = .ret ⟨sources, c.OnPrepare, c.DedicatedConnection, c.IgnoreVersion,
            c.CandidateConfig, c.VersionString, c.prepared, c.Platform, c.conn⟩ none
      ∧ WithConfigSources sources .platform s = .ret s (some ErrIgnoredOption)
      ∧ WithConfigSources sources .other x = .ret x (some ErrIgnoredOption))
    ∧ (WithOnPrepare onPrepare .cfg c
        = .ret ⟨c.ConfigSources, onPrepare, c.DedicatedConnection, c.IgnoreVersion,
            c.CandidateConfig, c.VersionString, c.prepared, c.Platform, c.conn⟩ none
      ∧ WithOnPrepare onPrepare .platform s = .ret s (some ErrIgnoredOption)
      ∧ WithOnPrepare onPrepare .other x = .ret x (some ErrIgnoredOption))
    ∧ (WithDedicatedConnection dedicated .cfg c
        = .ret ⟨c.ConfigSources, c.OnPrepare, dedicated, c.IgnoreVersion,
            c.CandidateConfig, c.VersionString, c.prepared, c.Platform, c.conn⟩ none
      ∧ WithDedicatedConnection dedicated .platform s = .ret s (some ErrIgnoredOption)
      ∧ WithDedicatedConnection dedicated .other x = .ret x (some ErrIgnoredOption))
    ∧ (WithIgnoreVersion ignore .cfg c
        = .ret ⟨c.ConfigSources, c.OnPrepare, c.DedicatedConnection, ignore,
            c.CandidateConfig, c.VersionString, c.prepared, c.Platform, c.conn⟩ none
      ∧ WithIgnoreVersion ignore .platform s = .ret s (some ErrIgnoredOption)
      ∧ WithIgnoreVersion ignore .other x = .ret x (some ErrIgnoredOption)) :=
  ⟨⟨rfl, rfl, rfl⟩, ⟨rfl, rfl, rfl⟩, ⟨rfl, rfl, rfl⟩, ⟨rfl, rfl, rfl⟩⟩

/-- Claim C9: on a `*Cfg`, whatever the attribute name and value, `setPlatformAttr`
returns `ErrIgnoredOption` and the `Cfg` is as it was. -/
theorem C9_setPlatformAttr_declines_cfg (range : MapRange) (attrName : String)
    (attrValue : GoValue) (c : Cfg) :
    setPlatformAttr range attrName attrValue .cfg c = .ret c (some ErrIgnoredOption) :=
  rfl

/-- Counterexample to claim C10 as stated: on a `*Cfg`, `WithVersionPattern` returns nil,
not `ErrIgnoredOption`. -/
theorem C10_counterexample :
    WithVersionPattern MapRange.stored (some "^v(.*)$") .cfg (defaultCfg none)
        = .ret (defaultCfg none) none
    ∧ WithVersionPattern MapRange.stored (some "^v(.*)$") .cfg (defaultCfg none)
        ≠ .ret (defaultCfg none) (some ErrIgnoredOption) := by
  refine ⟨rfl, ?_⟩
  intro h
  have hnil : WithVersionPattern MapRange.stored (some "^v(.*)$") .cfg (defaultCfg none)
      = .ret (defaultCfg none) none := rfl
  rw [hnil] at h
  cases h

/-- Claim C10, amended: on a `*Cfg`, for every pattern, `WithVersionPattern` changes
nothing and returns nil: it takes the `ErrIgnoredOption` of `setPlatformAttr` and does not
pass it on. -/
theorem C10_WithVersionPattern_on_cfg_returns_nil (range : MapRange) (p : Option String)
    (c : Cfg) :
    setPlatformAttr range "VersionPattern" (.regexp p) .cfg c
        = .ret c (some ErrIgnoredOption)
    ∧ WithVersionPattern range p .cfg c = .ret c none :=
  ⟨rfl, rfl⟩

/-! ## Claims C11 to C13: last write and the domain operations -/

/-- Claim C11: on every `Cfg`, `WithDedicatedConnection b1` and then
`WithDedicatedConnection b2` both return nil and leave `DedicatedConnection` at `b2`, and
`newCfg` on these two options in that order with a non-empty `WithConfigSources` before,
between or after them returns a `Cfg` whose `DedicatedConnection` is `b2`. -/
theorem C11_dedicated_connection_last_write_wins (c : Cfg) (b1 b2 : Bool) :
    (setPlatformOptions .cfg c [WithDedicatedConnection b1, WithDedicatedConnection b2]
        = ⟨[0, 1], .ret ⟨c.ConfigSources, c.OnPrepare, b2, c.IgnoreVersion,
            c.CandidateConfig, c.VersionString, c.prepared, c.Platform, c.conn⟩ none⟩)
    ∧ (stateAfter .cfg c
        [WithDedicatedConnection b1, WithDedicatedConnection b2]).DedicatedConnection = b2
    ∧ ∀ (conn : DriverRef) (s : List String), s ≠ [] →
      (∃ made : Cfg,
        (newCfg conn [WithConfigSources s, WithDedicatedConnection b1,
          WithDedicatedConnection b2]).out = .ret (some made) none
        ∧ made.DedicatedConnection = b2)
      ∧ (∃ made : Cfg,
        (newCfg conn [WithDedicatedConnection b1, WithConfigSources s,
          WithDedicatedConnection b2]).out = .ret (some made) none
        ∧ made.DedicatedConnection = b2)
      ∧ (∃ made : Cfg,
        (newCfg conn [WithDedicatedConnection b1, WithDedicatedConnection b2,
          WithConfigSources s]).out = .ret (some made) none
        ∧ made.DedicatedConnection = b2) := by
  refine ⟨rfl, rfl, ?_⟩
  intro conn s hs
  have hlen : s.length ≠ 0 := by
    intro h0
    exact hs (List.length_eq_zero.mp h0)
  refine ⟨⟨{ defaultCfg conn with ConfigSources := s, DedicatedConnection := b2 }, ?_, rfl⟩,
    ⟨{ defaultCfg conn with ConfigSources := s, DedicatedConnection := b2 }, ?_, rfl⟩,
    ⟨{ defaultCfg conn with ConfigSources := s, DedicatedConnection := b2 }, ?_, rfl⟩⟩
  · simp [newCfg, newCfgLoop, WithConfigSources, WithDedicatedConnection,
      NewCfgResult.logCall, hlen, defaultCfg]
  · simp [newCfg, newCfgLoop, WithConfigSources, WithDedicatedConnection,
      NewCfgResult.logCall, hlen, defaultCfg]
  · simp [newCfg, newCfgLoop, WithConfigSources, WithDedicatedConnection,
      NewCfgResult.logCall, hlen, defaultCfg]

/-- Witness of claim C11: true and then false gives false. -/
theorem C11_witness :
    (["running"] : List String) ≠ []
    ∧ ∃ made : Cfg,
        (newCfg none [WithConfigSources ["running"], WithDedicatedConnection true,
          WithDedicatedConnection false]).out = .ret (some made) none
        ∧ made.DedicatedConnection = false :=
  ⟨by decide,
   ((C11_dedicated_connection_last_write_wins (defaultCfg none) true false).2.2 none
      ["running"] (by decide)).1⟩

/-- Counterexample to claim C12 as stated: a `Cfg` with a `Platform` and a nil driver
reference; the `Platform` returns a failed response, `formatLogMessage` reads
`d.conn.Host` and the call panics instead of returning the response. -/
theorem C12_counterexample :
    (sampleFacade none ⟨"15.1", true⟩).GetVersion.out = .panic
    ∧ (sampleFacade none ⟨"15.1", true⟩).GetVersion.out ≠ .value ⟨"15.1", true⟩
    ∧ ((sampleFacade none ⟨"15.1", true⟩).GetConfig "running").out = .panic := by
  decide

/-- Claim C12, amended: for every `Cfg` with a `Platform` and a driver reference that is
not nil, `GetVersion` returns the response of the `Platform` as it is, `GetConfig` returns
as it is the response of the `Platform` for the same source, and the `Cfg` is as it was
after either call. -/
theorem C12_operations_return_platform_response (d : Cfg) (platform : Platform)
    (conn : Driver) (hp : d.Platform = some platform) (hc : d.conn = some conn) :
    (∀ r : Response, platform.GetVersion = some r →
      d.GetVersion.out = .value r ∧ d.GetVersion.receiver = d)
    ∧ (∀ (source : String) (r : Response), platform.GetConfig source = some r →
      (d.GetConfig source).out = .value r ∧ (d.GetConfig source).receiver = d) := by
  refine ⟨?_, ?_⟩
  · intro r hr
    unfold Cfg.GetVersion
    simp only [hp, hr, Cfg.formatLogMessage, hc, Option.map_some']
    by_cases hf : r.Failed = true <;> by_cases hres : r.Result = "" <;> simp [hf, hres]
  · intro source r hr
    unfold Cfg.GetConfig
    simp only [hp, hr, Cfg.formatLogMessage, hc, Option.map_some']
    by_cases hf : r.Failed = true <;> simp [hf]

/-- Witness of claim C12: the two responses of the spec come back as they are. -/
theorem C12_witness :
    (sampleFacade (some ⟨"r1", 22⟩) ⟨"15.1", true⟩).GetVersion.out = .value ⟨"15.1", true⟩
    ∧ (sampleFacade (some ⟨"r1", 22⟩) ⟨"", false⟩).GetVersion.out = .value ⟨"", false⟩
    ∧ ((sampleFacade (some ⟨"r1", 22⟩) ⟨"", false⟩).GetConfig "running").out
        = .value ⟨"", false⟩ :=
  ⟨((C12_operations_return_platform_response (sampleFacade (some ⟨"r1", 22⟩) ⟨"15.1", true⟩)
      { GetVersion := some ⟨"15.1", true⟩, GetConfig := fun _ => some ⟨"15.1", true⟩ }
      ⟨"r1", 22⟩ rfl rfl).1 ⟨"15.1", true⟩ rfl).1,
   ((C12_operations_return_platform_response (sampleFacade (some ⟨"r1", 22⟩) ⟨"", false⟩)
      { GetVersion := some ⟨"", false⟩, GetConfig := fun _ => some ⟨"", false⟩ }
      ⟨"r1", 22⟩ rfl rfl).1 ⟨"", false⟩ rfl).1,
   ((C12_operations_return_platform_response (sampleFacade (some ⟨"r1", 22⟩) ⟨"", false⟩)
      { GetVersion := some ⟨"", false⟩, GetConfig := fun _ => some ⟨"", false⟩ }
      ⟨"r1", 22⟩ rfl rfl).2 "running" ⟨"", false⟩ rfl).1⟩

/-- Counterexample to claim C13 as stated: with a nil driver reference and a failed
response the call panics in `formatLogMessage` before anything is logged: the log is empty,
so no entry is error-level and none is on the error sink, although `Failed` is true. -/
theorem C13_counterexample :
    (⟨"15.1", true⟩ : Response).Failed = true
    ∧ (sampleFacade none ⟨"15.1", true⟩).GetVersion.out = .panic
    ∧ (sampleFacade none ⟨"15.1", true⟩).GetVersion.log = []
    ∧ (¬ ∃ e ∈ (sampleFacade none ⟨"15.1", true⟩).GetVersion.log, e.isErrorLevel = true)
    ∧ ¬ ∃ e ∈ (sampleFacade none ⟨"15.1", true⟩).GetVersion.log, e.sink = .error := by
  decide

/-- Claim C13, amended: for every `Cfg` with a `Platform` and a driver reference that is
not nil, `GetVersion` hands an entry to the error sink exactly when `Failed` is true and
emits a warning-level entry exactly when `Result` is empty, the one on the error sink
first when both are due and nothing when neither is, and `GetConfig` hands an entry to the
error sink exactly when `Failed` is true.  The level of the entries on the error sink is
left open. -/
theorem C13_operations_log_trace (d : Cfg) (platform : Platform) (conn : Driver)
    (hp : d.Platform = some platform) (hc : d.conn = some conn) :
    (∀ r : Response, platform.GetVersion = some r →
      d.GetVersion.log.map LogEntry.unlabelled
          = (if r.Failed then
              [(LogSink.error, conn.Host, conn.Port, "failed to fetch device version")]
             else [])
            ++ (if r.Result = "" then
              [(LogSink.debug, conn.Host, conn.Port, "failed to parse device version")]
             else [])
        ∧ ((∃ e ∈ d.GetVersion.log, e.sink = .error) ↔ r.Failed = true)
        ∧ ((∃ e ∈ d.GetVersion.log, e.isWarningLevel = true) ↔ r.Result = "")
        ∧ (r.Failed = false → r.Result ≠ "" → d.GetVersion.log = []))
    ∧ (∀ (source : String) (r : Response), platform.GetConfig source = some r →
      (d.GetConfig source).log.map LogEntry.unlabelled
          = (if r.Failed then
              [(LogSink.error, conn.Host, conn.Port, "failed to fetch config from device")]
             else [])
        ∧ ((∃ e ∈ (d.GetConfig source).log, e.sink = .error) ↔ r.Failed = true)) := by
  refine ⟨?_, ?_⟩
  · intro r hr
    have hlog : d.GetVersion.log
        = (if r.Failed then
            [LogError (FormatLogMessage "debug" conn.Host conn.Port
              "failed to fetch device version")]
           else [])
          ++ (if r.Result = "" then
            [LogDebug (FormatLogMessage "warning" conn.Host conn.Port
              "failed to parse device version")]
           else []) := by
      unfold Cfg.GetVersion
      simp only [hp, hr, Cfg.formatLogMessage, hc, Option.map_some']
      by_cases hf : r.Failed = true <;> by_cases hres : r.Result = "" <;> simp [hf, hres]
    refine ⟨?_, ?_, ?_, ?_⟩
    · rw [hlog]
      by_cases hf : r.Failed = true <;> by_cases hres : r.Result = "" <;>
        simp [hf, hres, LogEntry.unlabelled, LogError, LogDebug, FormatLogMessage]
    · rw [hlog]
      by_cases hf : r.Failed = true <;> by_cases hres : r.Result = "" <;>
        simp [hf, hres, LogError, LogDebug, FormatLogMessage]
    · rw [hlog]
      by_cases hf : r.Failed = true <;> by_cases hres : r.Result = "" <;>
        simp [hf, hres, LogEntry.isWarningLevel, LogEntry.level, LogError, LogDebug,
          FormatLogMessage]
    · intro hf hres
      rw [hlog]
      simp [hf, hres]
  · intro source r hr
    have hlog : (d.GetConfig source).log
        = (if r.Failed then
            [LogError (FormatLogMessage "debug" conn.Host conn.Port
              "failed to fetch config from device")]
           else []) := by
      unfold Cfg.GetConfig
      simp only [hp, hr, Cfg.formatLogMessage, hc, Option.map_some']
      by_cases hf : r.Failed = true <;> simp [hf]
    refine ⟨?_, ?_⟩
    · rw [hlog]
      by_cases hf : r.Failed = true <;>
        simp [hf, LogEntry.unlabelled, LogError, FormatLogMessage]
    · rw [hlog]
      by_cases hf : r.Failed = true <;> simp [hf, LogError, FormatLogMessage]

/-- Witness of claim C13: a failed response with an empty result gives both entries, the
one on the error sink first. -/
theorem C13_witness :
    (sampleFacade (some ⟨"r1", 22⟩) ⟨"", true⟩).GetVersion.log.map LogEntry.unlabelled
      = [(LogSink.error, "r1", 22, "failed to fetch device version"),
         (LogSink.debug, "r1", 22, "failed to parse device version")] :=
  ((C13_operations_log_trace (sampleFacade (some ⟨"r1", 22⟩) ⟨"", true⟩)
      { GetVersion := some ⟨"", true⟩, GetConfig := fun _ => some ⟨"", true⟩ }
      ⟨"r1", 22⟩ rfl rfl).1 ⟨"", true⟩ rfl).1

/-- The entry that a failed response puts on the error sink is formatted with the level
`debug` (base.go line 115), so by its level it is not an error-level entry. -/
theorem GetVersion_error_sink_entry_level :
    (sampleFacade (some ⟨"r1", 22⟩) ⟨"15.1", true⟩).GetVersion.log
      = [LogError (FormatLogMessage "debug" "r1" 22 "failed to fetch device version")]
    ∧ ¬ ∃ e ∈ (sampleFacade (some ⟨"r1", 22⟩) ⟨"15.1", true⟩).GetVersion.log,
        e.isErrorLevel = true := by
  decide

/-! ## Claims C14 to C16: errors of the injector and the defaults -/

/-- Counterexample to claim C14 as stated: two different missing attribute names on the
vendor struct give the same error, and its message mentions neither name nor the type of
the target. -/
theorem C14_counterexample :
    setPlatformAttr MapRange.stored "Foo" (.regexp none) .platform sampleVendor
        = .ret sampleVendor (some ErrInvalidPlatformAttr)
    ∧ setPlatformAttr MapRange.stored "Bar" (.regexp none) .platform sampleVendor
        = .ret sampleVendor (some ErrInvalidPlatformAttr)
    ∧ mentions ErrInvalidPlatformAttr.Error "Foo" = false
    ∧ mentions ErrInvalidPlatformAttr.Error "Bar" = false
    ∧ mentions ErrInvalidPlatformAttr.Error sampleVendor.TypeName = false :=
  ⟨rfl, rfl, by decide, by decide, by decide⟩

/-- Claim C14, amended: when the target has no field named `attrName`, `setPlatformAttr`
returns the sentinel `ErrInvalidPlatformAttr`, whose message is the fixed text
`invalid platform attribute`: for any two missing attribute names on any two targets the
errors returned are the same value. -/
theorem C14_unknown_attribute_error_is_fixed (range1 range2 : MapRange)
    (name1 name2 : String) (value1 value2 : GoValue) (v1 v2 : StructValue)
    (h1 : ∀ f ∈ v1.fields, f.Name ≠ name1) (h2 : ∀ f ∈ v2.fields, f.Name ≠ name2) :
    ∃ e : GoError,
      setPlatformAttr range1 name1 value1 .platform v1 = .ret v1 (some e)
      ∧ setPlatformAttr range2 name2 value2 .platform v2 = .ret v2 (some e)
      ∧ e = ErrInvalidPlatformAttr
      ∧ e.Error = "invalid platform attribute" := by
  refine ⟨ErrInvalidPlatformAttr, ?_, ?_, rfl, rfl⟩
  · simp [setPlatformAttr, attrIndexOf_missing range1 name1 v1 h1]
  · simp [setPlatformAttr, attrIndexOf_missing range2 name2 v2 h2]

/-- Witness of claim C14: the names `Foo` and `Bar` on the vendor struct and on a
`PlatformArgs`. -/
theorem C14_witness :
    ∃ e : GoError,
      setPlatformAttr MapRange.stored "Foo" (.regexp none) .platform sampleVendor
        = .ret sampleVendor (some e)
      ∧ setPlatformAttr MapRange.backwards "Bar" (.string "x") .platform
          (PlatformArgs.reflect ⟨none, []⟩)
        = .ret (PlatformArgs.reflect ⟨none, []⟩) (some e)
      ∧ e = ErrInvalidPlatformAttr
      ∧ e.Error = "invalid platform attribute" :=
  C14_unknown_attribute_error_is_fixed MapRange.stored MapRange.backwards "Foo" "Bar"
    (.regexp none) (.string "x") sampleVendor (PlatformArgs.reflect ⟨none, []⟩)
    (by
      intro f hf
      simp only [sampleVendor, List.mem_cons, List.mem_singleton, List.not_mem_nil,
        or_false] at hf
      rcases hf with rfl | rfl <;> decide)
    (by
      intro f hf
      simp only [PlatformArgs.reflect, List.mem_cons, List.mem_singleton, List.not_mem_nil,
        or_false] at hf
      rcases hf with rfl | rfl <;> decide)

/-- Counterexample to claim C15 as stated: the field `VersionPattern` of the vendor struct
does not accept a string; `setPlatformAttr` panics and returns no error. -/
theorem C15_counterexample :
    (∃ f ∈ sampleVendor.fields, f.Name = "VersionPattern"
        ∧ f.accepts (.string "15.1") = false)
    ∧ setPlatformAttr MapRange.stored "VersionPattern" (.string "15.1") .platform sampleVendor
        = .panic sampleVendor
    ∧ ¬ ∃ st e, setPlatformAttr MapRange.stored "VersionPattern" (.string "15.1") .platform
        sampleVendor = .ret st (some e) := by
  refine ⟨⟨_, List.mem_cons_of_mem _ (List.mem_cons_self _ _), rfl, rfl⟩, rfl, ?_⟩
  rintro ⟨st, e, hst⟩
  have hp : setPlatformAttr MapRange.stored "VersionPattern" (.string "15.1") .platform
      sampleVendor = .panic sampleVendor := rfl
  rw [hp] at hst
  cases hst

/-- Claim C15, amended: on a pointer to a platform struct with a field `f` (the last of
that name) whose type does not accept `attrValue`, `setPlatformAttr` with the name of `f`
returns no error: `Set` panics, under every visiting order of the map, and the fields of
the target are as they were. -/
theorem C15_unassignable_value_panics (range : MapRange) (attrValue : GoValue)
    (typeName : String) (front : List StructField) (f : StructField)
    (back : List StructField) (hback : ∀ g ∈ back, g.Name ≠ f.Name)
    (hrej : f.accepts attrValue = false) :
    setPlatformAttr range f.Name attrValue .platform ⟨typeName, front ++ f :: back⟩
      = .panic ⟨typeName, front ++ f :: back⟩ := by
  have hidx := attrIndexOf_last range typeName front f back hback
  have hne : ((front.length : Nat) : Int) ≠ -1 := by omega
  have hget : (front ++ f :: back)[front.length]? = some f := by
    rw [List.getElem?_append_right (Nat.le_refl _)]
    simp
  have hset : reflectSet f attrValue = none := by
    simp [reflectSet, hrej]
  simp only [setPlatformAttr, hidx, hne, if_false, Int.toNat_ofNat, hget, hset]

/-- Witness of claim C15: a boolean for the `ConfigCommandMap` of a `PlatformArgs`. -/
theorem C15_witness :
    setPlatformAttr MapRange.backwards "ConfigCommandMap" (.bool true) .platform
        (PlatformArgs.reflect ⟨some "^v", [("running", "show run")]⟩)
      = .panic (PlatformArgs.reflect ⟨some "^v", [("running", "show run")]⟩) :=
  C15_unassignable_value_panics MapRange.backwards (.bool true) "cfg.PlatformArgs"
    [ { Name := "VersionPattern", PkgPath := "",
        accepts := fun x => match x with
          | .regexp _ => true
          | _ => false,
        value := .regexp (some "^v") } ]
    { Name := "ConfigCommandMap", PkgPath := "",
      accepts := fun x => match x with
        | .stringMap _ => true
        | _ => false,
      value := .stringMap [("running", "show run")] }
    [] (by simp) rfl

/-- Claim C16: for a non-empty list `s`, the `Cfg` that `newCfg conn [WithConfigSources s]`
returns has `ConfigSources` equal to `s`, a nil `OnPrepare`, `DedicatedConnection`,
`IgnoreVersion` and `prepared` false, `CandidateConfig` and `VersionString` empty, a nil
`Platform`, and `conn` as it was passed in. -/
theorem C16_newCfg_defaults (conn : DriverRef) (s : List String) (hs : s ≠ []) :
    (newCfg conn [WithConfigSources s]).out
      = .ret (some ⟨s, none, false, false, "", "", false, none, conn⟩) none := by
  have hlen : s.length ≠ 0 := by
    intro h0
    exact hs (List.length_eq_zero.mp h0)
  simp [newCfg, newCfgLoop, WithConfigSources, NewCfgResult.logCall, hlen, defaultCfg]

/-- Witness of claim C16: one source and a driver reference. -/
theorem C16_witness :
    (["running"] : List String) ≠ []
    ∧ (newCfg (some ⟨"r1", 22⟩) [WithConfigSources ["running"]]).out
      = .ret (some ⟨["running"], none, false, false, "", "", false, none, some ⟨"r1", 22⟩⟩)
          none :=
  ⟨by decide, C16_newCfg_defaults (some ⟨"r1", 22⟩) ["running"] (by decide)⟩

/-! ## Claims C17 to C19: the applier in `newCfg`, library options, determinism -/

theorem afterApplier_logCall (i : Nat) (applied : Applied Cfg) :
    afterApplier (applied.logCall i) = (afterApplier applied).logCall i := by
  obtain ⟨calls, out⟩ := applied
  cases out with
  | panic st => rfl
  | ret st err =>
    cases err with
    | some e => rfl
    | none =>
      simp only [afterApplier, Applied.logCall]
      split <;> rfl

theorem newCfgLoop_eq_afterApplier (options : List OptionFn) :
    ∀ (i : Nat) (c : Cfg),
      newCfgLoop i c options = afterApplier (setPlatformOptionsLoop .cfg i c options) := by
  induction options with
  | nil =>
    intro i c
    simp only [newCfgLoop, setPlatformOptionsLoop, afterApplier]
  | cons option options ih =>
    intro i c
    rw [newCfgLoop, setPlatformOptionsLoop]
    cases hr : option .cfg c with
    | panic st => rfl
    | ret st err =>
      cases err with
      | none =>
        simp only
        rw [afterApplier_logCall, ih]
      | some e =>
        simp only
        by_cases he : errorsIs e ErrIgnoredOption = true
        · rw [if_pos he, if_pos he, afterApplier_logCall, ih]
        · rw [if_neg he, if_neg he]
          rfl

/-- Claim C17: `newCfg` gives what the spec says of it: the default `Cfg` bound to `conn`
is built, `setPlatformOptions` is run on it, an error of the applier is handed back with a
nil `Cfg`, and after a nil error the `ConfigSources` check decides; the options invoked
are the same. -/
theorem C17_newCfg_runs_the_applier (conn : DriverRef) (options : List OptionFn) :
    newCfg conn options = newCfgViaApplier conn options := by
  unfold newCfg newCfgViaApplier setPlatformOptions
  exact newCfgLoop_eq_afterApplier options 0 (defaultCfg conn)

theorem libraryOption_benign (o : LibraryOption) (c : Cfg) :
    (o.build .cfg c).benign = true := by
  cases o <;> rfl

theorem stateAfter_library_configSources (opts : List LibraryOption) :
    ∀ c : Cfg,
      (stateAfter .cfg c (opts.map LibraryOption.build)).ConfigSources
        = (lastConfigSources opts).getD c.ConfigSources := by
  induction opts with
  | nil => intro c; rfl
  | cons o opts ih =>
    intro c
    rw [List.map_cons, stateAfter_cons, ih]
    cases hlast : lastConfigSources opts with
    | some sources => simp [lastConfigSources, hlast]
    | none =>
      cases o <;>
        simp [lastConfigSources, hlast, LibraryOption.build, WithConfigSources,
          WithOnPrepare, WithDedicatedConnection, WithIgnoreVersion, WithVersionPattern,
          setPlatformAttr, errorsIs, Outcome.state]

theorem newCfg_library_out (conn : DriverRef) (opts : List LibraryOption) :
    (newCfg conn (opts.map LibraryOption.build)).out
      = if ((lastConfigSources opts).getD []).length = 0
        then .ret none (some ErrNoConfigSourcesProvided)
        else .ret (some (stateAfter .cfg (defaultCfg conn) (opts.map LibraryOption.build)))
          none := by
  unfold newCfg
  rw [newCfgLoop_all_benign (opts.map LibraryOption.build) 0 (defaultCfg conn)
    (by
      intro j _ hl
      simp only [List.get_eq_getElem, List.getElem_map]
      exact libraryOption_benign _ _)]
  simp only [stateAfter_library_configSources opts (defaultCfg conn)]
  rfl

/-- Claim C18: for a sequence of calls of the five library constructors, `newCfg` returns
a `Cfg` exactly when the sequence has a `WithConfigSources` and the last one was given a
non-empty list; the `Cfg` returned has that list as `ConfigSources`; in every other case
`newCfg` returns nil and `ErrNoConfigSourcesProvided`; so a non-empty `WithConfigSources`
followed by an empty one fails. -/
theorem C18_library_options_last_config_sources (conn : DriverRef)
    (opts : List LibraryOption) :
    ((∃ made : Cfg, (newCfg conn (opts.map LibraryOption.build)).out = .ret (some made) none)
      ↔ ∃ s : List String, lastConfigSources opts = some s ∧ s ≠ [])
    ∧ (∀ made : Cfg, (newCfg conn (opts.map LibraryOption.build)).out = .ret (some made) none →
        lastConfigSources opts = some made.ConfigSources)
    ∧ ((¬ ∃ s : List String, lastConfigSources opts = some s ∧ s ≠ []) →
        (newCfg conn (opts.map LibraryOption.build)).out
          = .ret none (some ErrNoConfigSourcesProvided))
    ∧ ∀ s : List String,
        (newCfg conn [WithConfigSources s, WithConfigSources []]).out
          = .ret none (some ErrNoConfigSourcesProvided) := by
  have hout := newCfg_library_out conn opts
  have hsrc := stateAfter_library_configSources opts (defaultCfg conn)
  refine ⟨?_, ?_, ?_, ?_⟩
  · constructor
    · rintro ⟨made, hmade⟩
      rw [hout] at hmade
      cases hlast : lastConfigSources opts with
      | none => rw [hlast] at hmade; simp at hmade
      | some s =>
        refine ⟨s, rfl, ?_⟩
        intro hs
        rw [hlast, hs] at hmade
        simp at hmade
    · rintro ⟨s, hlast, hs⟩
      refine ⟨stateAfter .cfg (defaultCfg conn) (opts.map LibraryOption.build), ?_⟩
      rw [hout, hlast]
      have hlen : s.length ≠ 0 := fun h0 => hs (List.length_eq_zero.mp h0)
      simp [hlen]
  · intro made hmade
    rw [hout] at hmade
    cases hlast : lastConfigSources opts with
    | none => rw [hlast] at hmade; simp at hmade
    | some s =>
      rw [hlast] at hmade
      by_cases hs : s.length = 0
      · simp [hs] at hmade
      · simp only [Option.getD_some, hs, if_false, NewCfgOutcome.ret.injEq,
          Option.some.injEq, and_true] at hmade
        rw [← hmade, hsrc, hlast]
        rfl
  · intro hno
    rw [hout]
    cases hlast : lastConfigSources opts with
    | none => simp
    | some s =>
      have hs : s = [] := by
        by_contra hne
        exact hno ⟨s, hlast, hne⟩
      simp [hs]
  · intro s
    rfl

/-- Witness of claim C18: two `WithConfigSources` and a `WithVersionPattern` after them;
construction succeeds with the list of the second. -/
theorem C18_witness :
    lastConfigSources
        [.configSources ["candidate"], .configSources ["running", "startup"],
          .versionPattern MapRange.stored (some "^v")] = some ["running", "startup"]
    ∧ ∃ made : Cfg,
        (newCfg none
          ([.configSources ["candidate"], .configSources ["running", "startup"],
            .versionPattern MapRange.stored (some "^v")].map LibraryOption.build)).out
          = .ret (some made) none :=
  ⟨rfl,
   (C18_library_options_last_config_sources none
      [.configSources ["candidate"], .configSources ["running", "startup"],
        .versionPattern MapRange.stored (some "^v")]).1.mpr
      ⟨["running", "startup"], rfl, by decide⟩⟩

theorem exists_last_field_named (attrName : String) (fields : List StructField)
    (h : ∃ f ∈ fields, f.Name = attrName) :
    ∃ (front : List StructField) (f : StructField) (back : List StructField),
      fields = front ++ f :: back ∧ f.Name = attrName ∧ ∀ g ∈ back, g.Name ≠ attrName := by
  induction fields with
  | nil =>
    obtain ⟨f, hf, _⟩ := h
    simp at hf
  | cons g fields ih =>
    by_cases hrest : ∃ f ∈ fields, f.Name = attrName
    · obtain ⟨front, f, back, hsplit, hname, hback⟩ := ih hrest
      exact ⟨g :: front, f, back, by rw [hsplit]; rfl, hname, hback⟩
    · obtain ⟨f, hf, hname⟩ := h
      rcases List.mem_cons.mp hf with heq | hmem
      · subst heq
        refine ⟨[], f, fields, rfl, hname, ?_⟩
        intro g hg hgname
        exact hrest ⟨g, hg, hgname⟩
      · exact absurd ⟨f, hmem, hname⟩ hrest

theorem linearIndexFrom_first (attrName : String) (front : List StructField)
    (f : StructField) (back : List StructField) (hname : f.Name = attrName)
    (hfront : ∀ g ∈ front, g.Name ≠ attrName) :
    ∀ i : Nat, linearIndexFrom attrName i (front ++ f :: back)
      = ((i + front.length : Nat) : Int) := by
  induction front with
  | nil =>
    intro i
    simp [linearIndexFrom, hname]
  | cons g front ih =>
    intro i
    have hg : g.Name ≠ attrName := hfront g (List.mem_cons_self _ _)
    rw [List.cons_append, linearIndexFrom, if_neg hg,
      ih (fun x hx => hfront x (List.mem_cons_of_mem _ hx)) (i + 1), List.length_cons]
    congr 1
    omega

theorem linearIndexFrom_missing (attrName : String) (fields : List StructField)
    (h : ∀ g ∈ fields, g.Name ≠ attrName) :
    ∀ i : Nat, linearIndexFrom attrName i fields = -1 := by
  induction fields with
  | nil => intro i; rfl
  | cons g fields ih =>
    intro i
    have hg : g.Name ≠ attrName := h g (List.mem_cons_self _ _)
    simp only [linearIndexFrom, hg, if_false]
    exact ih (fun x hx => h x (List.mem_cons_of_mem _ hx)) (i + 1)

theorem attrIndexOf_eq_linear (range : MapRange) (attrName : String) (v : StructValue)
    (hnodup : (v.fields.map (fun f => f.Name)).Nodup) :
    attrIndexOf range attrName v = linearIndexFrom attrName 0 v.fields := by
  by_cases h : ∃ f ∈ v.fields, f.Name = attrName
  · obtain ⟨front, f, back, hsplit, hname, hback⟩ := exists_last_field_named attrName _ h
    obtain ⟨typeName, fields⟩ := v
    simp only at hsplit hnodup
    subst hsplit
    have hfront : ∀ g ∈ front, g.Name ≠ attrName := by
      intro g hg hgname
      rw [List.map_append, List.map_cons, List.nodup_middle, List.nodup_cons] at hnodup
      apply hnodup.1
      rw [hname, ← hgname]
      exact List.mem_append_left _ (List.mem_map.mpr ⟨g, hg, rfl⟩)
    rw [linearIndexFrom_first attrName front f back hname hfront 0]
    subst hname
    rw [attrIndexOf_last range typeName front f back hback]
    simp
  · have hmiss : ∀ f ∈ v.fields, f.Name ≠ attrName := by
      intro f hf hname
      exact h ⟨f, hf, hname⟩
    rw [attrIndexOf_missing range attrName v hmiss, linearIndexFrom_missing attrName _ hmiss]

/-- Claim C19: on a struct whose field names are pairwise distinct, under every visiting
order of the map the index `setPlatformAttr` selects is that of the field named `attrName`
(`-1` when there is none), which is what a linear search in declaration order finds, so
the result and the final state of the target are those of the linear search and do not
depend on the visiting order. -/
theorem C19_setPlatformAttr_deterministic (range : MapRange) (attrName : String)
    (attrValue : GoValue) (v : StructValue)
    (hnodup : (v.fields.map (fun f => f.Name)).Nodup) :
    attrIndexOf range attrName v = linearIndexFrom attrName 0 v.fields
    ∧ (∀ (front : List StructField) (f : StructField) (back : List StructField),
        v.fields = front ++ f :: back → f.Name = attrName →
        attrIndexOf range attrName v = (front.length : Int))
    ∧ ((∀ f ∈ v.fields, f.Name ≠ attrName) → attrIndexOf range attrName v = -1)
    ∧ setPlatformAttr range attrName attrValue .platform v
        = setPlatformAttrLinear attrName attrValue v
    ∧ ∀ other : MapRange,
        setPlatformAttr other attrName attrValue .platform v
          = setPlatformAttr range attrName attrValue .platform v := by
  have hlin := attrIndexOf_eq_linear range attrName v hnodup
  have hres : ∀ r : MapRange, setPlatformAttr r attrName attrValue .platform v
      = setPlatformAttrLinear attrName attrValue v := by
    intro r
    simp only [setPlatformAttr, setPlatformAttrLinear,
      attrIndexOf_eq_linear r attrName v hnodup]
  refine ⟨hlin, ?_, attrIndexOf_missing range attrName v, hres range, ?_⟩
  · intro front f back hsplit hname
    rw [hlin, hsplit]
    have hfront : ∀ g ∈ front, g.Name ≠ attrName := by
      intro g hg hgname
      rw [hsplit, List.map_append, List.map_cons, List.nodup_middle, List.nodup_cons]
        at hnodup
      apply hnodup.1
      rw [hname, ← hgname]
      exact List.mem_append_left _ (List.mem_map.mpr ⟨g, hg, rfl⟩)
    rw [linearIndexFrom_first attrName front f back hname hfront 0]
    simp
  · intro other
    rw [hres other, hres range]

/-- Witness of claim C19: the vendor struct has two distinct field names; the name
`VersionPattern` selects index 1 under the backwards visiting order. -/
theorem C19_witness :
    (sampleVendor.fields.map (fun f => f.Name)).Nodup
    ∧ attrIndexOf MapRange.backwards "VersionPattern" sampleVendor
        = linearIndexFrom "VersionPattern" 0 sampleVendor.fields
    ∧ linearIndexFrom "VersionPattern" 0 sampleVendor.fields = 1 :=
  ⟨by decide,
   (C19_setPlatformAttr_deterministic MapRange.backwards "VersionPattern" (.regexp none)
      sampleVendor (by decide)).1,
   by decide⟩

end Scrapligo
